import Mathlib

/-!
Verification of the minion crate (src/src/lib.rs): a wrapper for making
long-running service loops cancellable.  The embedding models the work unit
by the finite script of results its successive `for_each` calls produce,
the shared `Arc<AtomicBool>` cancellation flag by a boolean heap indexed by
allocation site, and panic payloads crossing the thread boundary by an
explicit inductive type.
-/

namespace Minion

/-- Mirrors `enum LoopState` (lib.rs lines 45-50): whether the main service
loop should continue accepting new work. -/
inductive LoopState where
  | Continue : LoopState
  | Break : LoopState
deriving DecidableEq, Repr

/-- `Cancellable::run` (lib.rs lines 119-128) evaluated against a finite
script of `for_each` results: each list element is the value returned by one
successive call of `for_each`.  Returns the loop's terminal
`Result<(), E>` paired with the number of `for_each` calls made, or `none`
when the script is exhausted before a terminal item (the real loop would
call `for_each` again).  On `Ok(Continue)` the loop repeats, on `Ok(Break)`
it returns `Ok(())`, on `Err(e)` it returns `Err(e)` immediately. -/
def run {E : Type} : List (Except E LoopState) → Option (Except E Unit × Nat)
  | [] => none
  | r :: rest =>
    match r with
    | .ok .Continue =>
      match run rest with
      | some (res, n) => some (res, n + 1)
      | none => none
    | .ok .Break => some (.ok (), 1)
    | .error e => some (.error e, 1)

/-- The loop body executed by the thread started in `Cancellable::spawn`
(lib.rs lines 140-149), evaluated against the same kind of script.
`flags k` is the value the `keep_running.load(Ordering::SeqCst)` at the
k-th iteration boundary reads.  While the flag reads `true` the body calls
`for_each` and applies the same Continue/Break/Err policy as `run`; as soon
as the flag reads `false` the `while` exits and the body returns `Ok(())`
without calling `for_each` again.  The result pairs the terminal
`Result<(), E>` with the number of `for_each` calls made. -/
def spawnLoop {E : Type} (flags : Nat → Bool) :
    Nat → List (Except E LoopState) → Option (Except E Unit × Nat)
  | k, [] => if flags k then none else some (.ok (), 0)
  | k, r :: rest =>
    if flags k then
      match r with
      | .ok .Continue =>
        match spawnLoop flags (k + 1) rest with
        | some (res, n) => some (res, n + 1)
        | none => none
      | .ok .Break => some (.ok (), 1)
      | .error e => some (.error e, 1)
    else some (.ok (), 0)

/-- The initial value of the cancellation flag allocated by spawn:
`Arc::new(AtomicBool::new(true))`, lib.rs line 137. -/
def spawnInitialFlag : Bool := true

/-- A panic payload crossing the thread boundary.  `atom` is a payload as
raised inside `for_each`; `boxed p` is `p` with one more `Box<dyn Any>`
layer around it, as produced when a value is handed to the `panic!` macro
(whose expansion, `begin_panic`, boxes its argument). -/
inductive Payload where
  | atom : String → Payload
  | boxed : Payload → Payload
deriving DecidableEq, Repr

/-- Mirrors `struct Canceller` (lib.rs lines 171-174): a cloneable handle
holding `keep_running: Arc<AtomicBool>`.  The `Arc` is modelled by the
location of the flag it references in the flag heap. -/
structure Canceller where
  keep_running : Nat
deriving DecidableEq, Repr

/-- `#[derive(Clone)]` on `Canceller` (lib.rs line 171): cloning copies the
`Arc`, so the clone references the same flag location. -/
def Canceller.clone (c : Canceller) : Canceller :=
  { keep_running := c.keep_running }

/-- Mirrors `struct Handle<E>` (lib.rs lines 165-168): the embedded
canceller plus the join capability for the spawned thread, modelled by the
value `executor.join()` will eventually yield — `.error p` when the thread
terminated by a panic with payload `p`, `.ok r` when it returned `r`. -/
structure Handle (E : Type) where
  canceller : Canceller
  executor : Except Payload (Except E Unit)

/-- The `Deref` impl for `Handle` (lib.rs lines 201-207): dereferencing a
handle yields its embedded canceller. -/
def Handle.deref {E : Type} (h : Handle E) : Canceller :=
  h.canceller

/-- `Handle::canceller` (lib.rs lines 181-185): builds a fresh `Canceller`
from `self.keep_running.clone()`; the field access resolves through the
`Deref` impl to the embedded canceller's flag, and `&self` does not consume
the handle. -/
def canceller {E : Type} (h : Handle E) : Canceller :=
  { keep_running := (Canceller.clone (Handle.deref h)).keep_running }

/-- The heap of cancellation flags, one allocated per spawn, indexed by
location. -/
abbrev FlagStore := Nat → Bool

/-- `Canceller::cancel` (lib.rs lines 215-217):
`self.keep_running.store(false, Ordering::SeqCst)` — write `false` into the
referenced flag, leaving every other flag unchanged.  The Rust method
returns `()`: it is total and cannot fail. -/
def Canceller.cancel (c : Canceller) (σ : FlagStore) : FlagStore :=
  fun l => if l = c.keep_running then false else σ l

/-- The wiring performed by `Cancellable::spawn` (lib.rs lines 132-156):
one fresh flag location `l` is allocated (line 137) holding
`spawnInitialFlag`; the spawned thread polls location `l` through the
cloned `Arc` (lines 139-141); the returned handle bundles a canceller
referencing `l` (line 153) and the join capability (line 154).  The result
pairs the handle with the location the spawned loop observes. -/
def spawn (E : Type) (l : Nat) (jr : Except Payload (Except E Unit)) :
    Handle E × Nat :=
  ({ canceller := { keep_running := l }, executor := jr }, l)

/-- `Handle::wait` (lib.rs lines 190-198): join the spawned thread; on a
normal return pass the loop's `Result` through verbatim; when the thread
panicked, re-raise with `panic!(e)` where `e` is the joined payload.  The
`panic!` macro passes its non-string argument to `begin_panic`, which boxes
it, so the payload of the re-raised panic is the original payload wrapped
in one extra `Box<dyn Any>` layer.  `.ok r` models `wait` returning `r`;
`.error p` models `wait` itself panicking with payload `p`. -/
def wait {E : Type} (h : Handle E) : Except Payload (Except E Unit) :=
  match h.executor with
  | .ok r => .ok r
  | .error e => .error (Payload.boxed e)

/-- The accesses the source ever performs on a cancellation flag after its
allocation: the spawned loop's `load` (lib.rs line 141) and cancel's
`store(false, _)` (line 216).  No other expression in the crate touches the
`AtomicBool`. -/
inductive FlagAccess where
  | load : FlagAccess
  | store_false : FlagAccess
deriving DecidableEq, Repr

/-- Effect of one flag access on the flag's value: a load leaves it
unchanged, the only store writes `false`. -/
def applyAccess : Bool → FlagAccess → Bool
  | b, .load => b
  | _, .store_false => false

/-- The flag's value after a sequence of accesses. -/
def runAccesses (b : Bool) (ops : List FlagAccess) : Bool :=
  ops.foldl applyAccess b

/-- Combined state of one spawned loop and its flag: the flag's current
value, the number of `for_each` calls made so far, and the loop's terminal
result once it has finished (`none` while it is still running). -/
structure SysState (E : Type) where
  flag : Bool
  calls : Nat
  result : Option (Except E Unit)

/-- State right after `spawn` returns: the flag was just allocated `true`
(lib.rs line 137), no `for_each` call has happened, the loop is running. -/
def initState (E : Type) : SysState E :=
  { flag := spawnInitialFlag, calls := 0, result := none }

/-- A `cancel()` event interleaved with the loop: stores `false` into the
flag (lib.rs line 216) and touches nothing else. -/
def cancelEvt {E : Type} (s : SysState E) : SysState E :=
  { s with flag := false }

/-- One iteration of the spawned loop (lib.rs lines 141-147) as a
transition on the combined state, where `steps i` is the result the
(i+1)-th `for_each` call returns.  A finished loop does nothing more.  A
running loop first loads the flag: on `false` the `while` exits and the
thread returns `Ok(())` without calling `for_each`; on `true` it calls
`for_each` and applies the Continue/Break/Err policy.  The iteration only
ever loads the flag — no branch assigns to it. -/
def loopIter {E : Type} (steps : Nat → Except E LoopState) (s : SysState E) :
    SysState E :=
  match s.result with
  | some _ => s
  | none =>
    if s.flag then
      match steps s.calls with
      | .ok .Continue => { s with calls := s.calls + 1 }
      | .ok .Break => { s with calls := s.calls + 1, result := some (.ok ()) }
      | .error e => { s with calls := s.calls + 1, result := some (.error e) }
    else { s with result := some (.ok ()) }

/-- C1: for every finite script of `for_each` results consisting of
`Ok(Continue)` items followed by a terminal `Ok(Break)` or `Err(e)`,
`run()` terminates and returns `Ok(())` for the `Break` terminal and
`Err(e)` for the error terminal, after exactly one `for_each` call per
`Continue` plus one for the terminal item; results placed after the
terminal are never consumed, so no call happens after the `Break` or the
error. -/
theorem run_matches_terminal {E : Type} (pre extra : List (Except E LoopState))
    (hpre : ∀ x ∈ pre, x = Except.ok LoopState.Continue) :
    (run (pre ++ Except.ok LoopState.Break :: extra)
        = some (Except.ok (), pre.length + 1)) ∧
    ∀ e : E, run (pre ++ Except.error e :: extra)
        = some (Except.error e, pre.length + 1) := by
  induction pre with
  | nil => exact ⟨rfl, fun e => rfl⟩
  | cons x xs ih =>
    have hx : x = Except.ok LoopState.Continue := hpre x (List.mem_cons_self _ _)
    have hxs : ∀ y ∈ xs, y = Except.ok LoopState.Continue :=
      fun y hy => hpre y (List.mem_cons_of_mem _ hy)
    obtain ⟨ih1, ih2⟩ := ih hxs
    subst hx
    refine ⟨by simp [run, ih1], fun e => by simp [run, ih2 e]⟩

/-- Witness for C1: two `Continue` results, a `Break` terminal, and one item
after the terminal that is never consumed. -/
theorem run_matches_terminal_witness :
    run ([Except.ok LoopState.Continue, Except.ok LoopState.Continue,
        Except.ok LoopState.Break, Except.error "late"] :
        List (Except String LoopState))
      = some (Except.ok (), 3) :=
  (run_matches_terminal
    [Except.ok LoopState.Continue, Except.ok LoopState.Continue]
    [Except.error "late"] (by simp)).1

/-- C8: concrete scenarios for `run()`: a work unit returning `Continue`
twice and `Break` on the third call yields `Ok(())` after exactly 3 calls;
a work unit that always returns `Err("boom")` yields `Err("boom")` after
exactly 1 call, whatever it would have returned later. -/
theorem run_concrete_scenarios :
    (run ([Except.ok LoopState.Continue, Except.ok LoopState.Continue,
        Except.ok LoopState.Break] : List (Except String LoopState))
      = some (Except.ok (), 3)) ∧
    ∀ rest : List (Except String LoopState),
      run (Except.error "boom" :: rest) = some (Except.error "boom", 1) :=
  ⟨rfl, fun _ => rfl⟩

/-- C4: under the assumption that the cancellation flag is never set to
`false`, the loop body spawned by `spawn` returns exactly what `run`
returns on the same script of `for_each` results — the same terminal
`Result<(), E>` after the same number of `for_each` calls. -/
theorem spawnLoop_refines_run {E : Type} (flags : Nat → Bool)
    (hflags : ∀ i, flags i = true) :
    ∀ (k : Nat) (steps : List (Except E LoopState)),
      spawnLoop flags k steps = run steps := by
  intro k steps
  induction steps generalizing k with
  | nil => simp [spawnLoop, run, hflags k]
  | cons r rest ih =>
    cases r with
    | ok ls =>
      cases ls with
      | Continue => simp [spawnLoop, run, hflags k, ih (k + 1)]
      | Break => simp [spawnLoop, run, hflags k]
    | error e => simp [spawnLoop, run, hflags k]

/-- Witness for C4: with the flag constantly `true`, the spawned loop body
agrees with `run` on a concrete script. -/
theorem spawnLoop_refines_run_witness :
    spawnLoop (fun _ => true) 0
        ([Except.ok LoopState.Continue, Except.ok LoopState.Break] :
          List (Except String LoopState))
      = run ([Except.ok LoopState.Continue, Except.ok LoopState.Break] :
          List (Except String LoopState)) :=
  spawnLoop_refines_run (fun _ => true) (fun _ => rfl) 0 _

/-- One iteration of the spawned loop never changes the flag: every branch
of the loop body only loads `keep_running`. -/
lemma loopIter_flag_eq {E : Type} (steps : Nat → Except E LoopState) :
    ∀ s : SysState E, (loopIter steps s).flag = s.flag := by
  rintro ⟨flag, calls, result⟩
  cases result with
  | some r => rfl
  | none =>
    cases flag with
    | false => rfl
    | true =>
      unfold loopIter
      cases steps calls with
      | ok ls => cases ls <;> rfl
      | error e => rfl

/-- Iterating the spawned loop never changes the flag. -/
lemma loopIter_iterate_flag_eq {E : Type} (steps : Nat → Except E LoopState)
    (n : Nat) : ∀ s : SysState E, ((loopIter steps)^[n] s).flag = s.flag := by
  induction n with
  | zero => intro s; rfl
  | succ m ih =>
    intro s
    rw [Function.iterate_succ_apply, ih, loopIter_flag_eq]

/-- C10: the spawned loop only ever reads the cancellation flag and never
writes it: any number of loop iterations — including the ones that finish
the loop via `Break` or `Err` — leave the flag exactly as it was, and in
particular a loop run with no `cancel()` event keeps the flag at its
initial value `true` forever. -/
theorem spawned_loop_never_writes_flag {E : Type}
    (steps : Nat → Except E LoopState) (n : Nat) (s : SysState E) :
    ((loopIter steps)^[n] s).flag = s.flag ∧
    ((loopIter steps)^[n] (initState E)).flag = spawnInitialFlag :=
  ⟨loopIter_iterate_flag_eq steps n s, loopIter_iterate_flag_eq steps n (initState E)⟩

/-- Running the spawned loop on a work unit that always returns
`Ok(Continue)`, with nobody cancelling, after `n` iterations: the flag is
still `true`, `n` calls were made, and the loop is still running. -/
lemma contLoop_state {E : Type} (n : Nat) :
    (loopIter (fun _ : Nat => (Except.ok LoopState.Continue : Except E LoopState)))^[n]
        (initState E)
      = { flag := true, calls := n, result := none } := by
  induction n with
  | zero => rfl
  | succ m ih => rw [Function.iterate_succ_apply', ih]; rfl

/-- C2: whenever the flag reads `false` at an iteration boundary of a still
running loop, the iteration returns `Ok(())` without invoking `for_each`
(the call counter is unchanged and the loop is finished); consequently on a
work unit that always returns `Ok(Continue)`, a `cancel()` after any number
of iterations makes the next iteration terminate the thread with `Ok(())` —
the same terminal value a voluntary `Break` produces — and `wait()` then
passes that `Ok(())` through verbatim. -/
theorem cancel_stops_loop {E : Type} (steps : Nat → Except E LoopState)
    (s : SysState E) (hres : s.result = none) (hflag : s.flag = false) :
    loopIter steps s = { s with result := some (Except.ok ()) } ∧
    (∀ n : Nat,
      (loopIter (fun _ : Nat => (Except.ok LoopState.Continue : Except E LoopState))
          (cancelEvt
            ((loopIter (fun _ : Nat =>
                (Except.ok LoopState.Continue : Except E LoopState)))^[n]
              (initState E)))).result
        = some (Except.ok ())) ∧
    ∀ c : Canceller, wait (Handle.mk c (Except.ok (Except.ok ())) : Handle E)
        = Except.ok (Except.ok ()) := by
  refine ⟨?_, ?_, fun c => rfl⟩
  · obtain ⟨flag, calls, result⟩ := s
    cases hres
    cases hflag
    rfl
  · intro n
    rw [contLoop_state]
    rfl

/-- Witness for C2: a running state with the flag already `false` finishes
with `Ok(())` and an unchanged call counter. -/
theorem cancel_stops_loop_witness :
    loopIter (fun _ : Nat => (Except.ok LoopState.Continue : Except String LoopState))
        { flag := false, calls := 5, result := none }
      = { flag := false, calls := 5, result := some (Except.ok ()) } :=
  (cancel_stops_loop (fun _ : Nat => (Except.ok LoopState.Continue : Except String LoopState))
    { flag := false, calls := 5, result := none } rfl rfl).1

/-- C9: the spawned loop checks the flag before its first `for_each` call:
when the flag already reads `false` at the first boundary, the loop body
returns `Ok(())` with zero `for_each` calls, whatever the work unit would
have returned; equivalently, a `cancel()` event right after `spawn` makes
the first iteration finish with `Ok(())` and a call counter still at 0. -/
theorem spawn_checks_flag_first {E : Type} (flags : Nat → Bool)
    (steps : List (Except E LoopState)) (scheduled : Nat → Except E LoopState)
    (hflag : flags 0 = false) :
    spawnLoop flags 0 steps = some (Except.ok (), 0) ∧
    (loopIter scheduled (cancelEvt (initState E))).result = some (Except.ok ()) ∧
    (loopIter scheduled (cancelEvt (initState E))).calls = 0 := by
  refine ⟨?_, rfl, rfl⟩
  cases steps with
  | nil => simp [spawnLoop, hflag]
  | cons r rest => simp [spawnLoop, hflag]

/-- Witness for C9: a flag that reads `false` immediately prevents the one
scripted `for_each` result from ever being consumed. -/
theorem spawn_checks_flag_first_witness :
    spawnLoop (fun _ => false) 0
        ([Except.error "boom"] : List (Except String LoopState))
      = some (Except.ok (), 0) :=
  (spawn_checks_flag_first (fun _ => false)
    ([Except.error "boom"] : List (Except String LoopState))
    (fun _ => Except.error "boom") rfl).1

/-- Cancelling twice in a row is the same as cancelling once. -/
lemma cancel_cancel {c : Canceller} :
    ∀ τ : FlagStore, Canceller.cancel c (Canceller.cancel c τ) = Canceller.cancel c τ := by
  intro τ
  funext l
  by_cases hl : l = c.keep_running <;> simp [Canceller.cancel, hl]

/-- C5: `cancel()` is idempotent: from any flag-heap state, any positive
number of `cancel()` calls leaves the heap exactly as one call does, the
referenced flag reads `false` afterwards, a clone of the canceller cancels
identically, and repeating a `cancel` after any earlier one changes
nothing; `cancel` is a total function returning unit, so no call fails. -/
theorem cancel_idempotent (c : Canceller) (σ : FlagStore) (n : Nat)
    (h : 1 ≤ n) :
    (Canceller.cancel c)^[n] σ = Canceller.cancel c σ ∧
    Canceller.cancel c σ c.keep_running = false ∧
    Canceller.cancel (Canceller.clone c) σ = Canceller.cancel c σ ∧
    Canceller.cancel c (Canceller.cancel c σ) = Canceller.cancel c σ := by
  have hiter : ∀ (m : Nat) (τ : FlagStore),
      (Canceller.cancel c)^[m] (Canceller.cancel c τ) = Canceller.cancel c τ := by
    intro m
    induction m with
    | zero => intro τ; rfl
    | succ k ih =>
      intro τ
      rw [Function.iterate_succ_apply, cancel_cancel, ih]
  obtain ⟨m, rfl⟩ := Nat.exists_eq_add_of_le h
  refine ⟨?_, by simp [Canceller.cancel], rfl, cancel_cancel σ⟩
  rw [Nat.add_comm, Function.iterate_add_apply, Function.iterate_one]
  exact hiter m σ

/-- Witness for C5: three `cancel()` calls on a concrete canceller and heap
behave exactly like one, and leave the referenced flag `false`. -/
theorem cancel_idempotent_witness :
    (Canceller.cancel { keep_running := 0 })^[3] (fun _ => true)
        = Canceller.cancel { keep_running := 0 } (fun _ => true) ∧
    Canceller.cancel { keep_running := 0 } (fun _ => true)
        (Canceller.keep_running { keep_running := 0 }) = false ∧
    Canceller.cancel (Canceller.clone { keep_running := 0 }) (fun _ => true)
        = Canceller.cancel { keep_running := 0 } (fun _ => true) ∧
    Canceller.cancel { keep_running := 0 }
        (Canceller.cancel { keep_running := 0 } (fun _ => true))
        = Canceller.cancel { keep_running := 0 } (fun _ => true) :=
  cancel_idempotent { keep_running := 0 } (fun _ => true) 3 (by decide)

/-- C6: the flag allocated by `spawn` starts `true`, and among the two
accesses occurring in the source — the loop's load and cancel's store of
`false` — only the store writes; hence once the flag is `false` after some
access sequence, no further accesses ever bring it back to `true`. -/
theorem flag_never_reset (ops1 ops2 : List FlagAccess)
    (h : runAccesses spawnInitialFlag ops1 = false) :
    spawnInitialFlag = true ∧
    runAccesses spawnInitialFlag (ops1 ++ ops2) = false := by
  refine ⟨rfl, ?_⟩
  have hmono : ∀ ops : List FlagAccess, runAccesses false ops = false := by
    intro ops
    induction ops with
    | nil => rfl
    | cons op rest ih => cases op <;> simpa [runAccesses, applyAccess] using ih
  have hsplit : runAccesses spawnInitialFlag (ops1 ++ ops2)
      = runAccesses (runAccesses spawnInitialFlag ops1) ops2 := by
    simp [runAccesses, List.foldl_append]
  rw [hsplit, h, hmono]

/-- Witness for C6: after cancel's store the flag is `false` and a further
load finds it still `false`. -/
theorem flag_never_reset_witness :
    spawnInitialFlag = true ∧
    runAccesses spawnInitialFlag
        ([FlagAccess.store_false] ++ [FlagAccess.load]) = false :=
  flag_never_reset [FlagAccess.store_false] [FlagAccess.load] rfl

/-- C7: `Handle::canceller` takes the handle by shared reference and builds
its result from the embedded canceller's flag (through the `Deref` impl and
an `Arc::clone`), so the returned canceller — and any clone of it —
references the same flag as the handle's own canceller; cancelling through
either writes the same heap, and on a handle produced by `spawn` that
write sets exactly the flag location the spawned loop polls. -/
theorem canceller_shares_flag {E : Type} (h : Handle E) (σ : FlagStore)
    (l : Nat) (jr : Except Payload (Except E Unit)) :
    (canceller h).keep_running = h.canceller.keep_running ∧
    Canceller.clone (canceller h) = canceller h ∧
    Canceller.cancel (canceller h) σ = Canceller.cancel h.canceller σ ∧
    (canceller (spawn E l jr).1).keep_running = (spawn E l jr).2 ∧
    Canceller.cancel (canceller (spawn E l jr).1) σ (spawn E l jr).2 = false := by
  refine ⟨rfl, rfl, rfl, rfl, ?_⟩
  simp [canceller, Canceller.cancel, Canceller.clone, Handle.deref, spawn]

/-- C3 evaluated on the source's `wait`: a thread that panicked with payload
`p` makes `wait` re-raise through `panic!(e)`, and the macro's expansion
boxes its argument, so the re-raised panic carries `Payload.boxed p` — the
original payload wrapped in one extra `Box<dyn Any>` layer rather than `p`
itself.  The failure is re-raised as a panic, not converted to an ordinary
`Result`, but the payload is not preserved exactly as the claim states. -/
theorem wait_wraps_panic_payload :
    wait (Handle.mk { keep_running := 0 }
        (Except.error (Payload.atom "boom")) : Handle String)
      = Except.error (Payload.boxed (Payload.atom "boom")) ∧
    Payload.boxed (Payload.atom "boom") ≠ Payload.atom "boom" :=
  ⟨rfl, by simp⟩

end Minion
